import Mathlib

/-!
Shallow embedding of the one-mcp gateway core (package `one-mcp`, Go) and
verification of its specification claims.

Modelling conventions, shared by all sections below:

- Go strings are Lean `String`s (the separator `__` is ASCII, so byte-level
  and character-level search coincide on well-formed input).
- JSON values (`interface\x7b\x7d` after `json.Unmarshal`, and the documents
  built with `map[string]interface\x7b\x7d`) are modelled by the inductive
  `Json` below.  Objects are association lists in construction order; Go maps
  have unique keys, which the code below respects.
- A Go nil-able slice (`var xs []T`) is modelled by `Option (List α)`:
  `none` is the nil slice, which `json.Marshal` renders as JSON `null`,
  while `some xs` renders as an array.
- Go maps used as sets or dictionaries built from lists are modelled by the
  originating lists; membership (`m[k]`) is `List.contains` and emptiness
  (`len(m) == 0`) is list emptiness, which agree with the map semantics
  because duplicates only collapse.
- Network and child-process effects are oracle parameters: an upstream's
  behaviour is a function from the request shape the gateway can send to the
  outcome observed, and an HTTP endpoint is a function from the final
  argument map to the observed HTTP-level result.
- The concurrent fan-out of `handleToolsList` is modelled sequentially; all
  properties proved about it are insensitive to the arrival order of the
  per-upstream contributions.
-/

/-- JSON values, as produced by Go `encoding/json` unmarshalling into
`interface` values and by marshalling of the gateway's reply documents. -/
inductive Json where
  | null : Json
  | bool : Bool → Json
  | num : Int → Json
  | str : String → Json
  | arr : List Json → Json
  | obj : List (String × Json) → Json

namespace Json

/-- Field lookup in a JSON object (first occurrence; Go maps have unique
keys).  Returns `none` on non-objects and missing fields. -/
def getField : Json → String → Option Json
  | .obj fields, k => fields.lookup k
  | _, _ => none

end Json

/-- Go map assignment `m[k] = v` on an association-list object: replaces the
first binding of `k`, or appends a fresh binding when `k` is absent. -/
def setField : List (String × Json) → String → Json → List (String × Json)
  | [], k, v => [(k, v)]
  | (k0, v0) :: rest, k, v =>
      if k0 = k then (k, v) :: rest else (k0, v0) :: setField rest k v

/-- A JSON-RPC 2.0 error object (`core.JSONRPCError`). -/
structure JSONRPCError where
  code : Int
  message : String
deriving DecidableEq, Repr

/-- A JSON-RPC 2.0 message (`core.JSONRPCMessage`).  Absent fields are
`none`, matching the `omitempty` serialization of the Go struct. -/
structure JSONRPCMessage where
  jsonrpc : String
  id : Option Json
  method : Option String
  params : Option Json
  result : Option Json
  error : Option JSONRPCError

namespace Gateway

/-- The permission predicate built in `Gateway.HandleMessage`
(gateway.go, `hasPermission`): the tool list, when configured, is
authoritative, with `*` as a wildcard; otherwise an empty server list allows
everything and a non-empty one is a whitelist of decimal server ids. -/
def hasPermission (allowedServerIDs allowedTools : List String)
    (srvID toolName : String) : Bool :=
  if allowedTools.length > 0 then
    if allowedTools.contains "*" then true
    else allowedTools.contains toolName
  else
    if allowedServerIDs.length = 0 then true
    else allowedServerIDs.contains srvID

end Gateway

/-- C1: the permission predicate obeys the spec's precedence.  When
`allowed_tools` is non-empty the decision is exactly wildcard-or-exact-name
membership in `allowed_tools` and is independent of `allowed_servers`; when
both lists are empty everything is allowed; when only `allowed_servers` is
non-empty the decision is membership of the decimal server id. -/
theorem hasPermission_precedence :
    (∀ (ss ts : List String) (srv tool : String), ts ≠ [] →
      Gateway.hasPermission ss ts srv tool
        = (ts.contains "*" || ts.contains tool)) ∧
    (∀ (ss ss' ts : List String) (srv tool : String), ts ≠ [] →
      Gateway.hasPermission ss ts srv tool
        = Gateway.hasPermission ss' ts srv tool) ∧
    (∀ srv tool : String, Gateway.hasPermission [] [] srv tool = true) ∧
    (∀ (ss : List String) (srv tool : String), ss ≠ [] →
      Gateway.hasPermission ss [] srv tool = ss.contains srv) := by
  refine ⟨?_, ?_, ?_, ?_⟩
  · intro ss ts srv tool hts
    have hlen : ts.length > 0 := List.length_pos.mpr hts
    unfold Gateway.hasPermission
    rw [if_pos hlen]
    cases hw : ts.contains "*" <;> simp [hw]
  · intro ss ss' ts srv tool hts
    have hlen : ts.length > 0 := List.length_pos.mpr hts
    unfold Gateway.hasPermission
    rw [if_pos hlen, if_pos hlen]
  · intro srv tool
    simp [Gateway.hasPermission]
  · intro ss srv tool hss
    have hlen : ¬ (ss.length = 0) := by
      simpa [List.length_eq_zero] using hss
    simp [Gateway.hasPermission, hlen]

/-- C1 witness: the precedence theorem applied at a concrete key whose tool
list names exactly one prefixed tool. -/
theorem hasPermission_precedence_witness :
    Gateway.hasPermission ["7"] ["github__get_issue"] "7" "github__get_issue"
      = (["github__get_issue"].contains "*"
          || ["github__get_issue"].contains "github__get_issue") :=
  hasPermission_precedence.1 ["7"] ["github__get_issue"] "7" "github__get_issue"
    (by decide)

/-- Whether a character list starts with the two-character separator `__`
(the search step of Go `strings.SplitN(name, "__", 2)`). -/
def startsWithSep : List Char → Bool
  | c1 :: c2 :: _ => c1 == '_' && c2 == '_'
  | _ => false

/-- Split on the first occurrence of `__`, as `strings.SplitN(s, "__", 2)`
does: `none` when the separator does not occur (Go result length 1),
otherwise the text before and after the first occurrence. -/
def splitSep : List Char → Option (List Char × List Char)
  | [] => none
  | c :: rest =>
    if startsWithSep (c :: rest) then some ([], rest.drop 1)
    else
      match splitSep rest with
      | some (l, r) => some (c :: l, r)
      | none => none

/-- Whether a character list ends with an underscore. -/
def endsUnderscore : List Char → Bool
  | [] => false
  | [c] => c == '_'
  | _ :: c :: rest => endsUnderscore (c :: rest)

/-- One-step unfolding of `splitSep` on a non-empty list. -/
theorem splitSep_cons (c : Char) (rest : List Char) :
    splitSep (c :: rest)
      = if startsWithSep (c :: rest) then some ([], rest.drop 1)
        else
          match splitSep rest with
          | some (l, r) => some (c :: l, r)
          | none => none := rfl

/-- Splitting after prefixing recovers the parts, provided the prefix
contains no `__` and does not end in `_` (otherwise the first occurrence of
`__` falls before the separator that was inserted). -/
theorem splitSep_prefix_roundtrip (t : List Char) : ∀ N : List Char,
    splitSep N = none → endsUnderscore N = false →
    splitSep (N ++ '_' :: '_' :: t) = some (N, t) := by
  intro N
  induction N with
  | nil =>
    intro _ _
    simp [splitSep, startsWithSep]
  | cons c rest ih =>
    intro h1 h2
    cases rest with
    | nil =>
      have hc : (c == '_') = false := by simpa [endsUnderscore] using h2
      simp [splitSep, startsWithSep, hc]
    | cons d rest2 =>
      cases hsw : startsWithSep (c :: d :: rest2) with
      | true => simp [splitSep, hsw] at h1
      | false =>
        cases hs : splitSep (d :: rest2) with
        | some p =>
          obtain ⟨l, r⟩ := p
          rw [splitSep_cons, hs] at h1
          simp [hsw] at h1
        | none =>
          have h2' : endsUnderscore (d :: rest2) = false := by
            simpa [endsUnderscore] using h2
          have ihr := ih hs h2'
          have hsw2 : startsWithSep (c :: d :: (rest2 ++ '_' :: '_' :: t)) = false := by
            simpa [startsWithSep] using hsw
          simp only [List.cons_append] at ihr ⊢
          rw [splitSep_cons, ihr]
          simp [hsw2]

namespace Gateway

/-- String-level split of a prefixed tool name into
`(serverName, toolName)`, embedding the `strings.SplitN(params.Name, "__",
2)` step of `Gateway.handleToolCall`. -/
def splitToolName (s : String) : Option (String × String) :=
  match splitSep s.data with
  | some (l, r) => some (String.mk l, String.mk r)
  | none => none

/-- Whether a tool name contains the `__` separator at all. -/
def containsDoubleUnderscore (s : String) : Bool :=
  (splitSep s.data).isSome

/-- The shapes of `tools/list` parameters the gateway can send upstream
(`nil`, `{}`, `{"cursor": null}`, or a concrete cursor). -/
inductive ParamShape where
  | noParams
  | emptyObj
  | nullCursor
  | cursor (s : String)

/-- The outcome of one `UpstreamClient.Call("tools/list", …)` as observed by
the aggregation loop: a transport-level error (`err != nil`), a JSON-RPC
error with its code, or a decoded page of tools with its `nextCursor`. -/
inductive CallResult where
  | transportErr
  | rpcError (code : Int)
  | page (tools : List Json) (nextCursor : String)

/-- One registered upstream as the gateway dispatch sees it: its unique
name, its database id, and its observable `tools/list` behaviour. -/
structure GUpstream where
  name : String
  id : Nat
  behavior : ParamShape → CallResult

/-- What `Gateway.handleToolCall` does after parsing the params: either it
replies immediately with a JSON-RPC error (never contacting any upstream),
or it invokes `Call("tools/call", {name, arguments})` on the named
upstream.  `callUpstream` records the upstream name, the stripped tool name
sent as `name`, and the pass-through `arguments`. -/
inductive RouteStep where
  | errorReply (code : Int) (message : String)
  | callUpstream (serverName toolName : String) (args : Json)

/-- The routing logic of `Gateway.handleToolCall` (gateway.go): split the
prefixed name on the first `__`, look up the upstream by the left half,
check the permission predicate on `(decimal id, full prefixed name)`, and
only then forward with the stripped name and untouched arguments. -/
def routeToolCall (ups : List GUpstream) (perm : String → String → Bool)
    (toolFullName : String) (args : Json) : RouteStep :=
  match splitToolName toolFullName with
  | none => .errorReply (-32602) "Invalid tool name format"
  | some (serverName, strippedName) =>
    match ups.find? (fun u => u.name == serverName) with
    | none => .errorReply (-32602) "Server not found"
    | some u =>
      if perm (toString u.id) toolFullName then
        .callUpstream serverName strippedName args
      else
        .errorReply (-32000) "Permission denied"

end Gateway

/-- The character data of a prefixed tool name `N ++ "__" ++ t`. -/
theorem prefixed_name_data (N t : String) :
    (N ++ "__" ++ t).data = N.data ++ '_' :: '_' :: t.data := by
  simp [String.data_append]

/-- Rebuilding a string from its own character data is the identity. -/
theorem string_mk_data (s : String) : String.mk s.data = s := rfl

/-- C4 counterexample: the claim quantifies over every upstream name with no
`__` and every tool name, but for `N = "a_"` and `t = "_b"` the prefixed
name is `a____b`, whose first `__` occurs before the inserted separator, so
splitting yields `("a", "__b")`, not `("a_", "_b")`. -/
theorem prefix_strip_counterexample :
    Gateway.containsDoubleUnderscore "a_" = false ∧
    Gateway.splitToolName ("a_" ++ "__" ++ "_b") = some ("a", "__b") ∧
    Gateway.splitToolName ("a_" ++ "__" ++ "_b") ≠ some ("a_", "_b") := by
  refine ⟨by decide, by decide, by decide⟩

/-- C4 (amended): prefixing then stripping is the identity for every
upstream name `N` that contains no `__` and does not end in `_`, and every
tool name `t`; under the same proviso, a routed `tools/call` for
`N ++ "__" ++ t` whose upstream lookup succeeds and whose permission check
passes reaches exactly the upstream named `N`, carrying the stripped tool
name `t` and the caller's arguments unchanged. -/
theorem prefix_strip_roundtrip :
    (∀ N t : String, Gateway.containsDoubleUnderscore N = false →
        endsUnderscore N.data = false →
        Gateway.splitToolName (N ++ "__" ++ t) = some (N, t)) ∧
    (∀ (ups : List Gateway.GUpstream) (perm : String → String → Bool)
        (N t : String) (args : Json) (u : Gateway.GUpstream),
        Gateway.containsDoubleUnderscore N = false →
        endsUnderscore N.data = false →
        ups.find? (fun v => v.name == N) = some u →
        perm (toString u.id) (N ++ "__" ++ t) = true →
        Gateway.routeToolCall ups perm (N ++ "__" ++ t) args
          = Gateway.RouteStep.callUpstream N t args) := by
  have hsplit : ∀ N t : String, Gateway.containsDoubleUnderscore N = false →
      endsUnderscore N.data = false →
      Gateway.splitToolName (N ++ "__" ++ t) = some (N, t) := by
    intro N t h1 h2
    have hnone : splitSep N.data = none := by
      unfold Gateway.containsDoubleUnderscore at h1
      cases h : splitSep N.data with
      | none => rfl
      | some p => rw [h] at h1; simp at h1
    unfold Gateway.splitToolName
    rw [prefixed_name_data, splitSep_prefix_roundtrip t.data N.data hnone h2]
  refine ⟨hsplit, ?_⟩
  intro ups perm N t args u h1 h2 hfind hperm
  unfold Gateway.routeToolCall
  rw [hsplit N t h1 h2]
  dsimp only
  rw [hfind]
  dsimp only
  rw [hperm]
  simp

/-- C4 witness: the round-trip theorem applied to the upstream name
`github` and tool name `get_issue`. -/
theorem prefix_strip_roundtrip_witness :
    Gateway.splitToolName ("github" ++ "__" ++ "get_issue")
      = some ("github", "get_issue") :=
  prefix_strip_roundtrip.1 "github" "get_issue" (by decide) (by decide)

/-- C5: tool-call routing returns exactly the spec's error taxonomy, and in
each error case it replies directly (a `RouteStep.errorReply`, which never
contacts an upstream — only `RouteStep.callUpstream` does): a name without
`__` yields `-32602` "Invalid tool name format"; a left half naming no
registered upstream yields `-32602` "Server not found"; a permission-denied
pair yields `-32000` "Permission denied". -/
theorem toolCall_error_taxonomy :
    (∀ (ups : List Gateway.GUpstream) (perm : String → String → Bool)
        (name : String) (args : Json),
        Gateway.containsDoubleUnderscore name = false →
        Gateway.routeToolCall ups perm name args
          = Gateway.RouteStep.errorReply (-32602) "Invalid tool name format") ∧
    (∀ (ups : List Gateway.GUpstream) (perm : String → String → Bool)
        (name : String) (args : Json) (s t : String),
        Gateway.splitToolName name = some (s, t) →
        ups.find? (fun v => v.name == s) = none →
        Gateway.routeToolCall ups perm name args
          = Gateway.RouteStep.errorReply (-32602) "Server not found") ∧
    (∀ (ups : List Gateway.GUpstream) (perm : String → String → Bool)
        (name : String) (args : Json) (s t : String) (u : Gateway.GUpstream),
        Gateway.splitToolName name = some (s, t) →
        ups.find? (fun v => v.name == s) = some u →
        perm (toString u.id) name = false →
        Gateway.routeToolCall ups perm name args
          = Gateway.RouteStep.errorReply (-32000) "Permission denied") := by
  refine ⟨?_, ?_, ?_⟩
  · intro ups perm name args h
    have hnone : Gateway.splitToolName name = none := by
      unfold Gateway.containsDoubleUnderscore at h
      unfold Gateway.splitToolName
      cases hs : splitSep name.data with
      | none => rfl
      | some p => rw [hs] at h; simp at h
    unfold Gateway.routeToolCall
    rw [hnone]
  · intro ups perm name args s t hsplit hfind
    unfold Gateway.routeToolCall
    rw [hsplit]
    dsimp only
    rw [hfind]
  · intro ups perm name args s t u hsplit hfind hperm
    unfold Gateway.routeToolCall
    rw [hsplit]
    dsimp only
    rw [hfind]
    dsimp only
    rw [hperm]
    simp

/-- C5 witness: a name without the separator is rejected with the
invalid-format error. -/
theorem toolCall_error_taxonomy_witness :
    Gateway.routeToolCall [] (fun _ _ => true) "plainname" Json.null
      = Gateway.RouteStep.errorReply (-32602) "Invalid tool name format" :=
  toolCall_error_taxonomy.1 [] (fun _ _ => true) "plainname" Json.null (by decide)

namespace Gateway

/-- Per-tool processing inside the aggregation loop of
`Gateway.handleToolsList`: a tool entry with a string `name` field has its
name rewritten to `<upstream name>__<original name>`; the rewritten entry is
kept only when the permission predicate accepts `(decimal server id,
prefixed name)`.  Entries without a string name are skipped. -/
def processTool (upName srvID : String) (perm : String → String → Bool) :
    Json → Option Json
  | .obj fields =>
    match fields.lookup "name" with
    | some (.str n) =>
      let prefixedName := upName ++ "__" ++ n
      if perm srvID prefixedName then
        some (.obj (setField fields "name" (.str prefixedName)))
      else none
    | _ => none
  | _ => none

/-- The first-page fallback sequence of `Gateway.handleToolsList`: call with
`params = nil`; on JSON-RPC error `-32602` retry with `{}`; if that also
answers `-32602`, retry with `{"cursor": null}`; any transport error, any
non-`-32602` JSON-RPC error, and a `-32602` on the last attempt all abandon
the upstream (result `none`). -/
def firstPageAttempt (b : ParamShape → CallResult) :
    Option (List Json × String) :=
  match b .noParams with
  | .page ts n => some (ts, n)
  | .transportErr => none
  | .rpcError c =>
    if c = -32602 then
      match b .emptyObj with
      | .page ts n => some (ts, n)
      | .transportErr => none
      | .rpcError c2 =>
        if c2 = -32602 then
          match b .nullCursor with
          | .page ts n => some (ts, n)
          | _ => none
        else none
    else none

/-- A later page request `{"cursor": cursor}`: any error ends the
upstream's pagination (no fallback outside the first page). -/
def laterPageAttempt (b : ParamShape → CallResult) (cursor : String) :
    Option (List Json × String) :=
  match b (.cursor cursor) with
  | .page ts n => some (ts, n)
  | _ => none

/-- The paginated collection loop of one upstream inside
`Gateway.handleToolsList`, with explicit fuel standing for the unbounded Go
loop: each page's tools are filtered and renamed by `processTool`; an empty
`nextCursor` stops; a failed page attempt keeps what was already collected
and stops. -/
def contributionLoop (upName srvID : String) (perm : String → String → Bool)
    (b : ParamShape → CallResult) : Nat → String → List Json
  | 0, _ => []
  | fuel + 1, cursor =>
    match if cursor = "" then firstPageAttempt b else laterPageAttempt b cursor with
    | none => []
    | some (ts, n) =>
      let kept := ts.filterMap (processTool upName srvID perm)
      if n = "" then kept
      else kept ++ contributionLoop upName srvID perm b fuel n

/-- The full contribution of one upstream to the aggregated tool list. -/
def contribution (perm : String → String → Bool) (u : GUpstream)
    (fuel : Nat) : List Json :=
  contributionLoop u.name (toString u.id) perm u.behavior fuel ""

/-- Go `append(allTools, tool...)` on the nil-able `allTools` slice:
appending nothing leaves a nil slice nil; the first real append makes the
slice non-nil. -/
def appendTools (acc : Option (List Json)) : List Json → Option (List Json)
  | [] => acc
  | ts =>
    match acc with
    | none => some ts
    | some xs => some (xs ++ ts)

/-- `json.Marshal` of a nil-able slice: Go marshals a nil slice as JSON
`null` and a non-nil slice as an array. -/
def marshalNilableArr : Option (List Json) → Json
  | none => .null
  | some xs => .arr xs

/-- The aggregated `allTools` slice over all upstreams (the concurrent
fan-out modelled sequentially; every property proved below is insensitive
to upstream order). -/
def aggTools (ups : List GUpstream) (perm : String → String → Bool)
    (fuel : Nat) : Option (List Json) :=
  ups.foldl (fun acc u => appendTools acc (contribution perm u fuel)) none

/-- `Gateway.handleToolsList`: aggregate every upstream's contribution and
always answer with a result document `{"tools": <marshalled slice>}` under
the caller's request id — never with a JSON-RPC error. -/
def handleToolsListM (ups : List GUpstream) (perm : String → String → Bool)
    (fuel : Nat) (req : JSONRPCMessage) : JSONRPCMessage :=
  { jsonrpc := "2.0", id := req.id, method := none, params := none,
    result := some (.obj [("tools", marshalNilableArr (aggTools ups perm fuel))]),
    error := none }

end Gateway

/-- Appending to a non-nil slice always concatenates. -/
theorem appendTools_some (xs ts : List Json) :
    Gateway.appendTools (some xs) ts = some (xs ++ ts) := by
  cases ts <;> simp [Gateway.appendTools]

/-- Folding `appendTools` from a non-nil slice concatenates everything. -/
theorem foldl_appendTools_some (l : List (List Json)) : ∀ xs : List Json,
    l.foldl Gateway.appendTools (some xs) = some (xs ++ l.flatten) := by
  induction l with
  | nil => intro xs; simp
  | cons ts l ih =>
    intro xs
    simp only [List.foldl_cons, appendTools_some, ih, List.flatten_cons,
      List.append_assoc]

/-- Folding `appendTools` from the nil slice yields `none` exactly when
every contribution is empty, and the concatenation otherwise. -/
theorem foldl_appendTools_none (l : List (List Json)) :
    l.foldl Gateway.appendTools none
      = (match l.flatten with
         | [] => none
         | ts => some ts) := by
  induction l with
  | nil => rfl
  | cons ts l ih =>
    cases ts with
    | nil =>
      simpa [Gateway.appendTools] using ih
    | cons t ts' =>
      simp [Gateway.appendTools, foldl_appendTools_some]

/-- C3 counterexample: with zero upstream clients the `allTools` slice is
never appended to, so it is still the Go nil slice and marshals as
`{"tools": null}` — not as the empty array `{"tools": []}` the claim
states. -/
theorem toolsList_empty_counterexample :
    (Gateway.handleToolsListM [] (fun _ _ => true) 1
        ⟨"2.0", some (.num 1), some "tools/list", none, none, none⟩).result
      = some (.obj [("tools", Json.null)]) ∧
    (Gateway.handleToolsListM [] (fun _ _ => true) 1
        ⟨"2.0", some (.num 1), some "tools/list", none, none, none⟩).result
      ≠ some (.obj [("tools", Json.arr [])]) := by
  constructor
  · rfl
  · intro h
    simp only [Gateway.handleToolsListM, Gateway.aggTools, List.foldl_nil,
      Gateway.marshalNilableArr, Option.some.injEq, Json.obj.injEq,
      List.cons.injEq, Prod.mk.injEq] at h
    exact Json.noConfusion h.1.2

/-- C3 (amended): a tools/list request handled with zero upstream clients
returns a response with no JSON-RPC error, under the caller's id, whose
result is `{"tools": null}`: the tools slice is never appended to, remains
a nil slice, and Go `json.Marshal` renders a nil slice as `null`, not as
`[]`. -/
theorem toolsList_empty_result :
    ∀ (perm : String → String → Bool) (fuel : Nat) (req : JSONRPCMessage),
      (Gateway.handleToolsListM [] perm fuel req).error = none ∧
      (Gateway.handleToolsListM [] perm fuel req).result
        = some (.obj [("tools", Json.null)]) ∧
      (Gateway.handleToolsListM [] perm fuel req).id = req.id :=
  fun _ _ _ => ⟨rfl, rfl, rfl⟩

/-- C6: the tools/list aggregation follows the per-upstream fallback
sequence.  The first page is requested with params absent; a page answer is
used as is; a `-32602` error triggers a retry with `{}`, and a second
`-32602` a retry with `{"cursor": null}`; three `-32602` answers make the
upstream contribute zero tools; a first-attempt error other than `-32602`
(transport errors included) aborts the upstream's contribution; the
aggregate is the concatenation of the per-upstream contributions, so each
upstream's failure leaves the others' contributions untouched; and the
downstream response never carries a JSON-RPC error. -/
theorem toolsList_fallback :
    (∀ (b : Gateway.ParamShape → Gateway.CallResult) (ts : List Json) (n : String),
        b .noParams = .page ts n →
        Gateway.firstPageAttempt b = some (ts, n)) ∧
    (∀ (b : Gateway.ParamShape → Gateway.CallResult) (ts : List Json) (n : String),
        b .noParams = .rpcError (-32602) → b .emptyObj = .page ts n →
        Gateway.firstPageAttempt b = some (ts, n)) ∧
    (∀ (b : Gateway.ParamShape → Gateway.CallResult) (ts : List Json) (n : String),
        b .noParams = .rpcError (-32602) → b .emptyObj = .rpcError (-32602) →
        b .nullCursor = .page ts n →
        Gateway.firstPageAttempt b = some (ts, n)) ∧
    (∀ (b : Gateway.ParamShape → Gateway.CallResult) (name : String) (srv : Nat)
        (perm : String → String → Bool) (fuel : Nat),
        b .noParams = .rpcError (-32602) → b .emptyObj = .rpcError (-32602) →
        b .nullCursor = .rpcError (-32602) →
        Gateway.contribution perm ⟨name, srv, b⟩ fuel = []) ∧
    (∀ (b : Gateway.ParamShape → Gateway.CallResult) (name : String) (srv : Nat)
        (perm : String → String → Bool) (fuel : Nat) (c : Int),
        b .noParams = .rpcError c → c ≠ -32602 →
        Gateway.contribution perm ⟨name, srv, b⟩ fuel = []) ∧
    (∀ (ups : List Gateway.GUpstream) (perm : String → String → Bool) (fuel : Nat),
        Gateway.aggTools ups perm fuel
          = (match (ups.map (fun u => Gateway.contribution perm u fuel)).flatten with
             | [] => none
             | ts => some ts)) ∧
    (∀ (ups : List Gateway.GUpstream) (perm : String → String → Bool)
        (fuel : Nat) (req : JSONRPCMessage),
        (Gateway.handleToolsListM ups perm fuel req).error = none) := by
  have hfirst_none3 : ∀ b : Gateway.ParamShape → Gateway.CallResult,
      b .noParams = .rpcError (-32602) → b .emptyObj = .rpcError (-32602) →
      b .nullCursor = .rpcError (-32602) →
      Gateway.firstPageAttempt b = none := by
    intro b h1 h2 h3
    unfold Gateway.firstPageAttempt
    rw [h1]
    dsimp only
    rw [if_pos rfl, h2]
    dsimp only
    rw [if_pos rfl, h3]
  have hfirst_other : ∀ (b : Gateway.ParamShape → Gateway.CallResult) (c : Int),
      b .noParams = .rpcError c → c ≠ -32602 →
      Gateway.firstPageAttempt b = none := by
    intro b c h1 hc
    unfold Gateway.firstPageAttempt
    rw [h1]
    dsimp only
    rw [if_neg hc]
  refine ⟨?_, ?_, ?_, ?_, ?_, ?_, ?_⟩
  · intro b ts n h
    unfold Gateway.firstPageAttempt
    rw [h]
  · intro b ts n h1 h2
    unfold Gateway.firstPageAttempt
    rw [h1]
    dsimp only
    rw [if_pos rfl, h2]
  · intro b ts n h1 h2 h3
    unfold Gateway.firstPageAttempt
    rw [h1]
    dsimp only
    rw [if_pos rfl, h2]
    dsimp only
    rw [if_pos rfl, h3]
  · intro b name srv perm fuel h1 h2 h3
    unfold Gateway.contribution
    cases fuel with
    | zero => rfl
    | succ fuel =>
      unfold Gateway.contributionLoop
      rw [if_pos rfl, hfirst_none3 b h1 h2 h3]
  · intro b name srv perm fuel c h1 hc
    unfold Gateway.contribution
    cases fuel with
    | zero => rfl
    | succ fuel =>
      unfold Gateway.contributionLoop
      rw [if_pos rfl, hfirst_other b c h1 hc]
  · intro ups perm fuel
    unfold Gateway.aggTools
    rw [← List.foldl_map (fun u => Gateway.contribution perm u fuel)
      Gateway.appendTools ups none]
    exact foldl_appendTools_none _
  · intro ups perm fuel req
    rfl

/-- C6 witness: an upstream answering `-32602` to all three parameter
shapes contributes zero tools. -/
theorem toolsList_fallback_witness :
    Gateway.contribution (fun _ _ => true)
      ⟨"srv", 1, fun _ => Gateway.CallResult.rpcError (-32602)⟩ 3 = [] :=
  toolsList_fallback.2.2.2.1 (fun _ => Gateway.CallResult.rpcError (-32602))
    "srv" 1 (fun _ _ => true) 3 rfl rfl rfl

namespace Stdio

/-- The forbidden shell metacharacters of `ValidateCommand` (transport.go),
written by code point: semicolon, pipe, ampersand, greater-than, less-than,
dollar, opening and closing parenthesis, exclamation mark, backtick, star,
question mark, square and curly brackets, tilde, backslash, double quote,
single quote, newline and carriage return. -/
def forbiddenChars : List Char :=
  [Char.ofNat 59, Char.ofNat 124, Char.ofNat 38, Char.ofNat 62, Char.ofNat 60,
   Char.ofNat 36, Char.ofNat 40, Char.ofNat 41, Char.ofNat 33, Char.ofNat 96,
   Char.ofNat 42, Char.ofNat 63, Char.ofNat 91, Char.ofNat 93, Char.ofNat 123,
   Char.ofNat 125, Char.ofNat 126, Char.ofNat 92, Char.ofNat 34, Char.ofNat 39,
   Char.ofNat 10, Char.ofNat 13]

/-- Go `strings.ContainsAny(s, forbidden)`. -/
def containsForbidden (s : String) : Bool :=
  s.data.any (fun c => forbiddenChars.contains c)

/-- The argument loop of `ValidateCommand`: the first argument holding a
forbidden character aborts with an error naming it. -/
def checkArgs : List String → Except String Unit
  | [] => .ok ()
  | a :: rest =>
    if containsForbidden a then
      .error ("malicious characters in argument: " ++ a)
    else checkArgs rest

/-- `core.ValidateCommand` (transport.go): reject the empty command, a
command with a forbidden character, or any argument with one. -/
def ValidateCommand (command : String) (args : List String) :
    Except String Unit :=
  if command = "" then .error "command is empty"
  else if containsForbidden command then
    .error "malicious characters in command"
  else checkArgs args

/-- Whether a validation outcome is an error. -/
def isErr : Except String Unit → Bool
  | .error _ => true
  | .ok _ => false

/-- What `StdioTransport.Start` does right after decoding the argument
list: `ValidateCommand` runs before `exec.CommandContext`, so a rejected
configuration returns the validation error and never creates the child
process; only a validated one reaches the spawn. -/
inductive StartAction where
  | rejected (msg : String)
  | spawns
deriving DecidableEq, Repr

/-- The validation gate of `StdioTransport.Start`. -/
def startAction (command : String) (args : List String) : StartAction :=
  match ValidateCommand command args with
  | .error e => .rejected e
  | .ok _ => .spawns

end Stdio

/-- Arguments free of forbidden characters all pass the argument loop. -/
theorem checkArgs_ok (args : List String)
    (h : ∀ a ∈ args, Stdio.containsForbidden a = false) :
    Stdio.checkArgs args = .ok () := by
  induction args with
  | nil => rfl
  | cons a rest ih =>
    have ha := h a (by simp)
    have ih' := ih (fun x hx => h x (by simp [hx]))
    simp [Stdio.checkArgs, ha, ih']

/-- An argument with a forbidden character makes the argument loop fail. -/
theorem checkArgs_err (args : List String)
    (h : ∃ a ∈ args, Stdio.containsForbidden a = true) :
    ∃ msg, Stdio.checkArgs args = .error msg := by
  induction args with
  | nil => simp at h
  | cons a rest ih =>
    by_cases ha : Stdio.containsForbidden a = true
    · exact ⟨"malicious characters in argument: " ++ a,
        by simp [Stdio.checkArgs, ha]⟩
    · have hb : Stdio.containsForbidden a = false := by simpa using ha
      obtain ⟨x, hx, hfx⟩ := h
      rcases List.mem_cons.mp hx with rfl | hx'
      · exact absurd hfx ha
      · obtain ⟨msg, hmsg⟩ := ih ⟨x, hx', hfx⟩
        exact ⟨msg, by simp [Stdio.checkArgs, hb, hmsg]⟩

/-- C8 counterexample: the empty command contains no forbidden character,
yet `ValidateCommand` rejects it ("command is empty"), so the claim's
clause "for every command and argument list containing none of these
characters, ValidateCommand returns no error" fails at `command = ""`. -/
theorem validateCommand_empty_counterexample :
    Stdio.containsForbidden "" = false ∧
    Stdio.ValidateCommand "" [] = .error "command is empty" ∧
    Stdio.isErr (Stdio.ValidateCommand "" []) = true :=
  ⟨rfl, rfl, rfl⟩

/-- C8 (amended): if the command or any argument contains a forbidden
shell metacharacter then `ValidateCommand` errors and the child process is
not spawned; conversely every NON-EMPTY command with arguments all free of
forbidden characters validates (the empty command is also rejected, with
"command is empty"). -/
theorem validateCommand_spec :
    (∀ (command : String) (args : List String),
        (Stdio.containsForbidden command = true ∨
          ∃ a ∈ args, Stdio.containsForbidden a = true) →
        Stdio.isErr (Stdio.ValidateCommand command args) = true ∧
        Stdio.startAction command args ≠ Stdio.StartAction.spawns) ∧
    (∀ (command : String) (args : List String),
        command ≠ "" →
        Stdio.containsForbidden command = false →
        (∀ a ∈ args, Stdio.containsForbidden a = false) →
        Stdio.ValidateCommand command args = .ok () ∧
        Stdio.startAction command args = Stdio.StartAction.spawns) := by
  constructor
  · intro command args h
    by_cases hcmd : command = ""
    · constructor
      · simp [Stdio.ValidateCommand, hcmd, Stdio.isErr]
      · simp [Stdio.startAction, Stdio.ValidateCommand, hcmd]
    · by_cases hfc : Stdio.containsForbidden command = true
      · constructor
        · simp [Stdio.ValidateCommand, hcmd, hfc, Stdio.isErr]
        · simp [Stdio.startAction, Stdio.ValidateCommand, hcmd, hfc]
      · have hfc' : Stdio.containsForbidden command = false := by simpa using hfc
        rcases h with hC | hA
        · exact absurd hC hfc
        · obtain ⟨msg, hmsg⟩ := checkArgs_err args hA
          constructor
          · simp [Stdio.ValidateCommand, hcmd, hfc', hmsg, Stdio.isErr]
          · simp [Stdio.startAction, Stdio.ValidateCommand, hcmd, hfc', hmsg]
  · intro command args hcmd hfc hargs
    have hca := checkArgs_ok args hargs
    constructor
    · simp [Stdio.ValidateCommand, hcmd, hfc, hca]
    · simp [Stdio.startAction, Stdio.ValidateCommand, hcmd, hfc, hca]

/-- C8 witness: a command containing a semicolon is rejected before any
spawn. -/
theorem validateCommand_spec_witness :
    Stdio.isErr (Stdio.ValidateCommand "ls;rm" []) = true ∧
    Stdio.startAction "ls;rm" [] ≠ Stdio.StartAction.spawns :=
  validateCommand_spec.1 "ls;rm" [] (Or.inl (by decide))

namespace Client

/-- The request-coordination state of one `UpstreamClient`: the keys of the
`pendingReqs` map (delivery slots) and the value of the shared `idCounter`. -/
structure ClientState where
  pending : List String
  idCounter : Int
deriving DecidableEq, Repr

/-- How the environment resolves one `Call`: the transport's `Send` fails,
a correlated response is delivered to the slot, or no response arrives
within the 30-second `select` window. -/
inductive CallEnv where
  | sendError (msg : String)
  | response (resp : JSONRPCMessage)
  | noResponseWithin30s

/-- `UpstreamClient.Call` (client code): reject while not ready unless the
method is the bootstrap `initialize`; otherwise allocate the next id,
register a delivery slot under the decimal id string, and — whatever the
outcome — deregister that slot (the Go `defer delete`) before returning the
response, the send error, or the 30-second timeout error. -/
def CallM (ready : Bool) (method : String) (st : ClientState)
    (env : CallEnv) : Except String JSONRPCMessage × ClientState :=
  if !ready && !(method == "initialize") then
    (.error "upstream not ready", st)
  else
    let id := st.idCounter + 1
    let idStr := toString id
    let registered := idStr :: st.pending
    let cleaned := registered.erase idStr
    match env with
    | .sendError msg => (.error msg, ⟨cleaned, id⟩)
    | .response resp => (.ok resp, ⟨cleaned, id⟩)
    | .noResponseWithin30s =>
        (.error "timeout waiting for upstream response", ⟨cleaned, id⟩)

end Client

/-- C7: `Call` rejects immediately with "upstream not ready" when the
ready flag is false and the method is not `initialize`; when the guard
passes and no response arrives within 30 seconds it returns the timeout
error; and in every outcome (response, timeout, or send error) the pending
slot registered for the call's id is removed again, so the pending map
after `Call` equals the pending map before it. -/
theorem call_guard_timeout_dereg :
    (∀ (method : String) (st : Client.ClientState) (env : Client.CallEnv),
        method ≠ "initialize" →
        Client.CallM false method st env = (.error "upstream not ready", st)) ∧
    (∀ (ready : Bool) (method : String) (st : Client.ClientState),
        (ready = true ∨ method = "initialize") →
        (Client.CallM ready method st .noResponseWithin30s).1
          = .error "timeout waiting for upstream response") ∧
    (∀ (ready : Bool) (method : String) (st : Client.ClientState)
        (env : Client.CallEnv),
        ((Client.CallM ready method st env).2).pending = st.pending) := by
  refine ⟨?_, ?_, ?_⟩
  · intro method st env h
    simp [Client.CallM, h]
  · intro ready method st h
    rcases h with rfl | rfl
    · simp [Client.CallM]
    · cases ready <;> simp [Client.CallM]
  · intro ready method st env
    unfold Client.CallM
    by_cases hg : (!ready && !(method == "initialize")) = true
    · rw [if_pos hg]
    · rw [if_neg hg]
      cases env <;> simp

/-- C7 witness: a non-bootstrap call against a not-ready client is
rejected immediately with the state untouched. -/
theorem call_guard_timeout_dereg_witness :
    Client.CallM false "tools/list" ⟨[], 0⟩ .noResponseWithin30s
      = (.error "upstream not ready", ⟨[], 0⟩) :=
  call_guard_timeout_dereg.1 "tools/list" ⟨[], 0⟩ .noResponseWithin30s
    (by decide)

namespace HTTPW

/-- One parameter of the HTTP wrapper's tool (`core.ToolParameter`). -/
structure ToolParameter where
  name : String
  type : String
  description : String
  required : Bool
  default : String

/-- The wrapper's tool configuration (`core.ToolConfig`). -/
structure ToolConfig where
  name : String
  description : String
  method : String
  headers : List (String × String)
  parameters : List ToolParameter

/-- Lookup with later entries overriding earlier ones, matching repeated
Go map assignment when the pairs are inserted in list order. -/
def lastLookup (xs : List (String × Json)) (k : String) : Option Json :=
  match xs with
  | [] => none
  | kv :: rest =>
    match lastLookup rest k with
    | some v => some v
    | none => if k == kv.1 then some kv.2 else none

/-- Phase 1 of the argument merge in `HTTPTransport.handleToolCall`: a map
pre-populated with every parameter's non-empty default. -/
def fillDefaults (ps : List ToolParameter) : String → Option Json :=
  ps.foldl
    (fun m p =>
      if p.default ≠ "" then
        fun q => if q == p.name then some (.str p.default) else m q
      else m)
    (fun _ => none)

/-- Phase 2 of the argument merge: the caller-supplied arguments are
assigned over the defaults, so the caller wins on every shared key. -/
def mergeArgs (ps : List ToolParameter) (args : List (String × Json)) :
    String → Option Json :=
  args.foldl (fun m kv => fun q => if q == kv.1 then some kv.2 else m q)
    (fillDefaults ps)

/-- The JSON-schema property emitted for one parameter by
`HTTPTransport.handleToolsList`: type and description, plus the default
when non-empty. -/
def buildProperty (p : ToolParameter) : Json :=
  .obj ([("type", .str p.type), ("description", .str p.description)]
    ++ (if p.default ≠ "" then [("default", .str p.default)] else []))

/-- The `required` slice accumulated by `HTTPTransport.handleToolsList`: a
parameter's name is appended exactly when `required` is set and the default
is empty. -/
def requiredNames (ps : List ToolParameter) : List String :=
  ps.filterMap (fun p =>
    if p.required && (p.default == "") then some p.name else none)

/-- The inputSchema document emitted by `HTTPTransport.handleToolsList`:
`type`/`properties` always, and a `required` field only when the required
slice is non-empty. -/
def buildSchema (ps : List ToolParameter) : Json :=
  .obj ([("type", .str "object"),
         ("properties", .obj (ps.map (fun p => (p.name, buildProperty p))))]
    ++ (if (requiredNames ps).isEmpty then []
        else [("required", .arr ((requiredNames ps).map .str))]))

/-- The string payload of a JSON value, when it is one. -/
def asStr : Json → Option String
  | .str s => some s
  | _ => none

/-- The members of the emitted schema's `required` list (empty when the
field is absent). -/
def schemaRequired (ps : List ToolParameter) : List String :=
  match (buildSchema ps).getField "required" with
  | some (.arr xs) => xs.filterMap asStr
  | _ => []

/-- The HTTP-level outcome of `executeHTTPRequest` as observed through the
Go `http.Client`: either the request itself failed (URL parse, transport,
or body read error) or a response with its status code and body arrived. -/
inductive HTTPResult where
  | netErr (msg : String)
  | response (status : Nat) (body : String)

/-- `HTTPTransport.executeHTTPRequest` after the HTTP exchange: a request
failure is returned as a Go error; a response with status `>= 400` is
folded into a SUCCESSFUL return whose string is `HTTP Error <status>:
<body>`; any other response returns the body. -/
def executeHTTPRequest (r : HTTPResult) : Except String String :=
  match r with
  | .netErr msg => .error msg
  | .response status body =>
    if status ≥ 400 then
      .ok ("HTTP Error " ++ toString status ++ ": " ++ body)
    else .ok body

/-- A reply emitted by the wrapper for one tools/call: a JSON-RPC result
document or a JSON-RPC error. -/
inductive WrapperReply where
  | success (result : Json)
  | rpcErrorReply (code : Int) (message : String)

/-- `HTTPTransport.handleToolCall`: reject a mismatched tool name with
`-32601`; otherwise merge defaults and caller arguments, run the HTTP
request on the merged map, and reply. A Go-level error from
`executeHTTPRequest` (transport failure) yields a result with
`isError: true`; an HTTP status error does NOT — it was already converted
into an ordinary string by `executeHTTPRequest`, so the reply carries only
the `content` field. -/
def handleToolCallW (tc : ToolConfig) (reqName : String)
    (args : List (String × Json))
    (exec : (String → Option Json) → HTTPResult) : WrapperReply :=
  if !(reqName == tc.name) then .rpcErrorReply (-32601) "Tool not found"
  else
    match executeHTTPRequest (exec (mergeArgs tc.parameters args)) with
    | .error msg =>
      .success (.obj [("content", .arr [.obj [("type", .str "text"),
        ("text", .str ("Error executing HTTP request: " ++ msg))]]),
        ("isError", .bool true)])
    | .ok body =>
      .success (.obj [("content", .arr [.obj [("type", .str "text"),
        ("text", .str body)]])])

end HTTPW

/-- One-step unfolding of `lastLookup` on a non-empty list. -/
theorem lastLookup_cons (kv : String × Json) (rest : List (String × Json))
    (k : String) :
    HTTPW.lastLookup (kv :: rest) k
      = (match HTTPW.lastLookup rest k with
         | some v => some v
         | none => if k == kv.1 then some kv.2 else none) := rfl

/-- Folding override-assignments over any base map looks up the last
assignment first and falls back to the base. -/
theorem foldl_override (k : String) : ∀ (xs : List (String × Json))
    (m : String → Option Json),
    (xs.foldl (fun m kv => fun q => if q == kv.1 then some kv.2 else m q) m) k
      = (match HTTPW.lastLookup xs k with
         | some v => some v
         | none => m k) := by
  intro xs
  induction xs with
  | nil => intro m; rfl
  | cons kv rest ih =>
    intro m
    simp only [List.foldl_cons]
    rw [ih, lastLookup_cons]
    cases h : HTTPW.lastLookup rest k with
    | some v => rfl
    | none => cases hk : (k == kv.1) <;> simp [hk]

/-- The accumulated `required` slice is the filtered projection of the
parameter list. -/
theorem requiredNames_eq (ps : List HTTPW.ToolParameter) :
    HTTPW.requiredNames ps
      = (ps.filter (fun p => p.required && (p.default == ""))).map
          (fun p => p.name) := by
  induction ps with
  | nil => rfl
  | cons p rest ih =>
    unfold HTTPW.requiredNames at ih ⊢
    simp only [List.filterMap_cons, List.filter_cons]
    by_cases hp : (p.required && (p.default == "")) = true
    · rw [if_pos hp, if_pos hp]
      dsimp only
      rw [List.map_cons, ih]
    · rw [if_neg hp, if_neg hp]
      dsimp only
      rw [ih]

/-- Filtering the string constructors back out of `required`'s array
recovers the name list. -/
theorem filterMap_str_map (l : List String) :
    l.filterMap (HTTPW.asStr ∘ Json.str) = l := by
  induction l with
  | nil => rfl
  | cons s rest ih =>
    simp [List.filterMap_cons, Function.comp, HTTPW.asStr, ih]

/-- `fillDefaults` is last-wins lookup over the non-empty defaults. -/
theorem fillDefaults_eq (k : String) : ∀ ps : List HTTPW.ToolParameter,
    HTTPW.fillDefaults ps k
      = HTTPW.lastLookup (ps.filterMap (fun p =>
          if p.default ≠ "" then some (p.name, Json.str p.default) else none)) k := by
  have aux : ∀ (ps : List HTTPW.ToolParameter) (m : String → Option Json),
      (ps.foldl
        (fun m p =>
          if p.default ≠ "" then
            fun q => if q == p.name then some (.str p.default) else m q
          else m)
        m) k
      = (match HTTPW.lastLookup (ps.filterMap (fun p =>
            if p.default ≠ "" then some (p.name, Json.str p.default) else none)) k with
         | some v => some v
         | none => m k) := by
    intro ps
    induction ps with
    | nil => intro m; rfl
    | cons p rest ih =>
      intro m
      by_cases hp : p.default ≠ ""
      · simp only [List.foldl_cons, List.filterMap_cons, if_pos hp]
        rw [ih, lastLookup_cons]
        cases h : HTTPW.lastLookup (rest.filterMap (fun p =>
            if p.default ≠ "" then some (p.name, Json.str p.default) else none)) k with
        | some v => rfl
        | none => cases hk : (k == p.name) <;> simp [hk]
      · simp only [List.foldl_cons, List.filterMap_cons, if_neg hp]
        rw [ih]
  intro ps
  unfold HTTPW.fillDefaults
  rw [aux]
  cases h : HTTPW.lastLookup (ps.filterMap (fun p =>
      if p.default ≠ "" then some (p.name, Json.str p.default) else none)) k
    <;> rfl

/-- C9: (a) a parameter appears in the emitted inputSchema's `required`
list exactly when `required = true` and `default = ""` — the list is the
name projection of precisely those parameters (and the `required` field is
omitted when that set is empty, leaving the list empty); (b) the final
argument map sent upstream on a matching tools/call is the defaults map
(every parameter with a non-empty default pre-populated, later parameters
overriding earlier ones of the same name) overridden key-by-key by the
caller-supplied arguments, with the caller winning on every shared key. -/
theorem httpWrapper_schema_and_merge :
    (∀ ps : List HTTPW.ToolParameter,
        HTTPW.schemaRequired ps
          = (ps.filter (fun p => p.required && (p.default == ""))).map
              (fun p => p.name)) ∧
    (∀ (ps : List HTTPW.ToolParameter) (args : List (String × Json))
        (k : String),
        HTTPW.mergeArgs ps args k
          = (match HTTPW.lastLookup args k with
             | some v => some v
             | none => HTTPW.fillDefaults ps k)) ∧
    (∀ (ps : List HTTPW.ToolParameter) (k : String),
        HTTPW.fillDefaults ps k
          = HTTPW.lastLookup (ps.filterMap (fun p =>
              if p.default ≠ "" then some (p.name, Json.str p.default)
              else none)) k) := by
  refine ⟨?_, ?_, ?_⟩
  · intro ps
    rw [← requiredNames_eq]
    unfold HTTPW.schemaRequired HTTPW.buildSchema
    cases hreq : (HTTPW.requiredNames ps).isEmpty with
    | true =>
      have hnil : HTTPW.requiredNames ps = [] := by
        simpa [List.isEmpty_iff] using hreq
      simp [hnil, Json.getField, List.lookup]
    | false =>
      simp [Json.getField, List.lookup, filterMap_str_map]
  · intro ps args k
    unfold HTTPW.mergeArgs
    exact foldl_override k args (HTTPW.fillDefaults ps)
  · intro ps k
    exact fillDefaults_eq k ps

/-- C2 counterexample: at a concrete tools/call with matching name whose
upstream HTTP response has status 404, the wrapper replies successfully
with the error folded into the text, but the result carries NO `isError`
field at all — `executeHTTPRequest` converts a status `>= 400` into an
ordinary success string, and only Go-level request failures set
`isError: true`. -/
theorem httpWrapper_isError_counterexample :
    HTTPW.handleToolCallW ⟨"fetch", "", "GET", [], []⟩ "fetch" []
        (fun _ => .response 404 "not found")
      = .success (.obj [("content", .arr [.obj [("type", .str "text"),
          ("text", .str "HTTP Error 404: not found")]])]) ∧
    (Json.obj [("content", .arr [.obj [("type", .str "text"),
        ("text", .str "HTTP Error 404: not found")]])]).getField "isError"
      = none ∧
    (none : Option Json) ≠ some (.bool true) := by
  refine ⟨rfl, rfl, by simp⟩

/-- C2 (amended): for every HTTP-wrapper tools/call whose name matches the
configured tool and whose upstream HTTP exchange yields a response with
status `>= 400`, the wrapper delivers a successful reply (no JSON-RPC
error) whose `content[0].text` is `HTTP Error <status>: <body>` — and the
result object contains no `isError` field (the `isError: true` shape is
reserved for Go-level request failures such as an unreachable host). -/
theorem httpWrapper_http_error_reply :
    ∀ (tc : HTTPW.ToolConfig) (args : List (String × Json))
      (exec : (String → Option Json) → HTTPW.HTTPResult)
      (status : Nat) (body : String),
      exec (HTTPW.mergeArgs tc.parameters args) = .response status body →
      status ≥ 400 →
      HTTPW.handleToolCallW tc tc.name args exec
        = .success (.obj [("content", .arr [.obj [("type", .str "text"),
            ("text", .str ("HTTP Error " ++ toString status ++ ": " ++ body))]])]) ∧
      (Json.obj [("content", .arr [.obj [("type", .str "text"),
          ("text", .str ("HTTP Error " ++ toString status ++ ": " ++ body))]])]).getField
        "isError" = none := by
  intro tc args exec status body hexec hstatus
  constructor
  · unfold HTTPW.handleToolCallW
    rw [hexec]
    simp [HTTPW.executeHTTPRequest, hstatus]
  · rfl

/-- C2 witness: the amended theorem applied at the concrete 404 case. -/
theorem httpWrapper_http_error_reply_witness :
    HTTPW.handleToolCallW ⟨"geo", "", "POST", [], []⟩ "geo" []
        (fun _ => .response 500 "boom")
      = .success (.obj [("content", .arr [.obj [("type", .str "text"),
          ("text", .str ("HTTP Error " ++ toString 500 ++ ": " ++ "boom"))]])]) :=
  (httpWrapper_http_error_reply ⟨"geo", "", "POST", [], []⟩ []
    (fun _ => .response 500 "boom") 500 "boom" rfl (by decide)).1

namespace HTTPW

/-- The fixed capabilities document `HTTPTransport.handleInitialize`
replies with. -/
def initCapsResult : Json :=
  .obj [("protocolVersion", .str "2024-11-05"),
        ("capabilities", .obj [("tools", .obj [("listChanged", .bool false)])]),
        ("serverInfo", .obj [("name", .str "one-mcp-http-wrapper"),
                             ("version", .str "1.0.0")])]

/-- The single-tool catalog `HTTPTransport.handleToolsList` replies with. -/
def toolsListResult (tc : ToolConfig) : Json :=
  .obj [("tools", .arr [.obj [("name", .str tc.name),
    ("description", .str tc.description),
    ("inputSchema", buildSchema tc.parameters)]])]

/-- `HTTPTransport.reply`: emit one result message through `onMessage`,
echoing the request id — or nothing at all when the id is absent. -/
def replyMsgs (id : Option Json) (result : Json) : List JSONRPCMessage :=
  match id with
  | none => []
  | some i => [⟨"2.0", some i, none, none, some result, none⟩]

/-- `HTTPTransport.replyError`: the error-shaped counterpart of `reply`. -/
def replyErrMsgs (id : Option Json) (code : Int) (msg : String) :
    List JSONRPCMessage :=
  match id with
  | none => []
  | some i => [⟨"2.0", some i, none, none, none, some ⟨code, msg⟩⟩]

/-- Go `json.Unmarshal` of the tools/call params into
`{Name string; Arguments map[string]interface...}`: an absent or null
`name` yields the zero string, a non-string name is a type error. -/
def parseName : Option Json → Option String
  | none => some ""
  | some (.str s) => some s
  | some _ => none

/-- The `arguments` member: absent or null yields the nil map, a
non-object is a type error. -/
def parseArgs : Option Json → Option (List (String × Json))
  | none => some []
  | some .null => some []
  | some (.obj a) => some a
  | some _ => none

/-- Unmarshalling the params document of a tools/call: absent params are a
parse error (Go `json.Unmarshal` of an empty RawMessage fails), a JSON
null produces the zero struct, an object is read field-wise, anything else
is a type error. -/
def parseToolCallParams : Option Json → Option (String × List (String × Json))
  | none => none
  | some .null => some ("", [])
  | some (.obj fields) =>
    match parseName (fields.lookup "name"), parseArgs (fields.lookup "arguments") with
    | some n, some a => some (n, a)
    | _, _ => none
  | some _ => none

/-- `HTTPTransport.Send` (part_005): dispatch on the five known methods,
synthesizing replies locally through `onMessage`; any other method is
silently accepted — the `replyError` for unknown methods is commented out
in the source, so NO message is emitted and `Send` returns nil.  The
returned list is every message passed to `onMessage`. -/
def SendM (tc : ToolConfig) (exec : (String → Option Json) → HTTPResult)
    (req : JSONRPCMessage) : List JSONRPCMessage :=
  if req.method = some "initialize" then replyMsgs req.id initCapsResult
  else if req.method = some "notifications/initialized" then []
  else if req.method = some "ping" then replyMsgs req.id (.str "pong")
  else if req.method = some "tools/list" then
    replyMsgs req.id (toolsListResult tc)
  else if req.method = some "tools/call" then
    match parseToolCallParams req.params with
    | none => replyErrMsgs req.id (-32700) "Parse error"
    | some (n, a) =>
      match handleToolCallW tc n a exec with
      | .success r => replyMsgs req.id r
      | .rpcErrorReply c m => replyErrMsgs req.id c m
  else []

/-- `UpstreamClient.Call` composed with an HTTP-wrapper transport: the
request is built with the next decimal id, `Send` runs synchronously and
delivers any reply through `onMessage` into the pending slot before the
30-second `select` starts; when `Send` emits nothing there is nothing to
deliver, ever, and the `select` can only time out.  (The wrapper replies
at most once, always echoing the request id, so the head of the emitted
list is the correlated response.) -/
def callThroughHTTP (tc : ToolConfig)
    (exec : (String → Option Json) → HTTPResult) (ready : Bool)
    (method : String) (params : Option Json) (st : Client.ClientState) :
    Except String JSONRPCMessage × Client.ClientState :=
  let id := st.idCounter + 1
  let req : JSONRPCMessage := ⟨"2.0", some (.num id), some method, params, none, none⟩
  let env : Client.CallEnv :=
    match SendM tc exec req with
    | [] => .noResponseWithin30s
    | m :: _ => .response m
  Client.CallM ready method st env

end HTTPW

/-- C10: for every JSON-RPC request whose method is none of `initialize`,
`notifications/initialized`, `ping`, `tools/list`, `tools/call`, the
HTTP-wrapper `Send` emits no message through `on_message` and reports no
error; consequently an `UpstreamClient.Call` with such a method against an
HTTP-wrapper upstream, once past the ready guard, can only end in the
30-second timeout error — with its pending slot deregistered. -/
theorem httpWrapper_unknown_method_timeout :
    (∀ (tc : HTTPW.ToolConfig) (exec : (String → Option Json) → HTTPW.HTTPResult)
        (req : JSONRPCMessage),
        req.method ≠ some "initialize" →
        req.method ≠ some "notifications/initialized" →
        req.method ≠ some "ping" →
        req.method ≠ some "tools/list" →
        req.method ≠ some "tools/call" →
        HTTPW.SendM tc exec req = []) ∧
    (∀ (tc : HTTPW.ToolConfig) (exec : (String → Option Json) → HTTPW.HTTPResult)
        (method : String) (params : Option Json) (st : Client.ClientState),
        method ≠ "initialize" →
        method ≠ "notifications/initialized" →
        method ≠ "ping" →
        method ≠ "tools/list" →
        method ≠ "tools/call" →
        (HTTPW.callThroughHTTP tc exec true method params st).1
          = .error "timeout waiting for upstream response" ∧
        ((HTTPW.callThroughHTTP tc exec true method params st).2).pending
          = st.pending) := by
  have hsend : ∀ (tc : HTTPW.ToolConfig)
      (exec : (String → Option Json) → HTTPW.HTTPResult)
      (req : JSONRPCMessage),
      req.method ≠ some "initialize" →
      req.method ≠ some "notifications/initialized" →
      req.method ≠ some "ping" →
      req.method ≠ some "tools/list" →
      req.method ≠ some "tools/call" →
      HTTPW.SendM tc exec req = [] := by
    intro tc exec req h1 h2 h3 h4 h5
    simp [HTTPW.SendM, h1, h2, h3, h4, h5]
  refine ⟨hsend, ?_⟩
  intro tc exec method params st h1 h2 h3 h4 h5
  have hreq : HTTPW.SendM tc exec
      ⟨"2.0", some (.num (st.idCounter + 1)), some method, params, none, none⟩
      = [] := by
    apply hsend <;> simp [h1, h2, h3, h4, h5]
  constructor
  · unfold HTTPW.callThroughHTTP
    dsimp only
    rw [hreq]
    simp [Client.CallM]
  · unfold HTTPW.callThroughHTTP
    dsimp only
    rw [hreq]
    simp [Client.CallM]

/-- C10 witness: a `resources/list` request against the wrapper emits no
reply and the composed call times out with the slot deregistered. -/
theorem httpWrapper_unknown_method_timeout_witness :
    HTTPW.SendM ⟨"w", "", "GET", [], []⟩ (fun _ => .netErr "unused")
        ⟨"2.0", some (.num 1), some "resources/list", none, none, none⟩ = [] ∧
    (HTTPW.callThroughHTTP ⟨"w", "", "GET", [], []⟩ (fun _ => .netErr "unused")
        true "resources/list" none ⟨[], 0⟩).1
      = .error "timeout waiting for upstream response" :=
  ⟨httpWrapper_unknown_method_timeout.1 ⟨"w", "", "GET", [], []⟩
      (fun _ => .netErr "unused")
      ⟨"2.0", some (.num 1), some "resources/list", none, none, none⟩
      (by simp) (by simp) (by simp) (by simp) (by simp),
   (httpWrapper_unknown_method_timeout.2 ⟨"w", "", "GET", [], []⟩
      (fun _ => .netErr "unused") "resources/list" none ⟨[], 0⟩
      (by decide) (by decide) (by decide) (by decide) (by decide)).1⟩
